import Mathlib

/-!
Shallow embedding of the pure game utilities of `src/lib/game-utils.ts`
(VoxelCopter), together with theorems settling the specification claims
about them.  JavaScript numbers are idealised as rationals where the code
only compares and adds, and as reals where `Math.sqrt` or `Math.PI`
appear.  `undefined` becomes `Option`, JSON values become an inductive
type, and the `while` loops of `normalizeAngleToRange` become
well-founded recursion.
-/

namespace GameUtils

/-- Embeds `normalizeDifficulty(difficulty: string | undefined)`:
`normal` maps to `medium`, the four canonical levels map to
themselves, everything else (including `undefined`) maps to `medium`. -/
def normalizeDifficulty (difficulty : Option String) : String :=
  if difficulty = some "normal" then "medium"
  else
    match difficulty with
    | some s =>
        if s = "easy" ∨ s = "medium" ∨ s = "hard" ∨ s = "extreme" then s
        else "medium"
    | none => "medium"

/-- Embeds `estimateSlopeFromSamples(samples)`: `samples[0]` is the centre
height; the result is the running `Math.max` of `Math.abs(sample - centerHeight)`
over the remaining entries, starting from `0`. -/
def estimateSlopeFromSamples (samples : List ℚ) : ℚ :=
  if samples.length ≤ 1 then 0
  else
    let centerHeight := samples.headD 0
    (samples.drop 1).foldl (fun maxDiff sample => max maxDiff |sample - centerHeight|) 0

/-- Embeds the `DamageCategory` record of boolean flags. -/
structure DamageCategory where
  armored : Bool
  infantry : Bool
  structure' : Bool
  air : Bool
deriving DecidableEq, Repr

/-- Embeds `getTargetDamageCategory(targetType)`: the `switch` over the
target-type string, with the all-false default branch. -/
def getTargetDamageCategory (targetType : String) : DamageCategory :=
  if targetType = "TANK" then ⟨true, false, false, false⟩
  else if targetType = "SAM_SITE" then ⟨true, false, false, false⟩
  else if targetType = "SOLDIER" then ⟨false, true, false, false⟩
  else if targetType = "BUILDING" then ⟨false, false, true, false⟩
  else if targetType = "HELICOPTER" then ⟨false, false, false, true⟩
  else ⟨false, false, false, false⟩

/-- Number of category flags set in a `DamageCategory`. -/
def categoryFlagCount (c : DamageCategory) : ℕ :=
  (if c.armored then 1 else 0) + (if c.infantry then 1 else 0) +
    (if c.structure' then 1 else 0) + (if c.air then 1 else 0)

/-- Embeds the `DAMAGE_MULTIPLIERS` table: per weapon, the partial record
from target-type strings to multipliers. -/
def DAMAGE_MULTIPLIERS : List (String × List (String × ℚ)) :=
  [ ("cannon",   [("TANK", 1/2),  ("SAM_SITE", 1),   ("SOLDIER", 2),   ("BUILDING", 3/10), ("HELICOPTER", 3/2)]),
    ("rocket",   [("TANK", 3/2),  ("SAM_SITE", 3/2), ("SOLDIER", 1),   ("BUILDING", 1),    ("HELICOPTER", 1)]),
    ("missile",  [("TANK", 2),    ("SAM_SITE", 2),   ("SOLDIER", 1/2), ("BUILDING", 3/2),  ("HELICOPTER", 2)]),
    ("bomb",     [("TANK", 5/2),  ("SAM_SITE", 2),   ("SOLDIER", 3/2), ("BUILDING", 3),    ("HELICOPTER", 1/2)]),
    ("rifle",    [("TANK", 1/10), ("SAM_SITE", 1/5), ("SOLDIER", 1),   ("BUILDING", 1/10), ("HELICOPTER", 3/10)]),
    ("sniper",   [("TANK", 1/5),  ("SAM_SITE", 1/2), ("SOLDIER", 3),   ("BUILDING", 1/5),  ("HELICOPTER", 1/2)]),
    ("launcher", [("TANK", 2),    ("SAM_SITE", 3/2), ("SOLDIER", 1/2), ("BUILDING", 1),    ("HELICOPTER", 5/2)]) ]

/-- Embeds `getDamageMultiplier(weaponType, targetType)`:
`DAMAGE_MULTIPLIERS[weaponType]?.[targetType] ?? 1.0` as a double
association-list lookup defaulting to `1`. -/
def getDamageMultiplier (weaponType targetType : String) : ℚ :=
  (((DAMAGE_MULTIPLIERS.lookup weaponType).bind fun row => row.lookup targetType)).getD 1

/-- A JSON-like runtime value, as `validateMission` may receive over the
mission API: `null`, booleans, numbers (idealised as rationals), strings,
arrays and string-keyed objects. -/
inductive JValue where
  | null : JValue
  | bool (b : Bool) : JValue
  | num (q : ℚ) : JValue
  | str (s : String) : JValue
  | arr (elems : List JValue) : JValue
  | obj (fields : List (String × JValue)) : JValue

/-- JavaScript truthiness of a value: `null`, `false`, `0` and the empty
string are falsy, every array and object is truthy. -/
def truthy : JValue → Bool
  | .null => false
  | .bool b => b
  | .num q => decide (q ≠ 0)
  | .str s => decide (s ≠ "")
  | .arr _ => true
  | .obj _ => true

/-- Embeds the check `typeof v` equals `object` (true for `null`, arrays and objects). -/
def typeofObject : JValue → Bool
  | .null => true
  | .arr _ => true
  | .obj _ => true
  | _ => false

/-- Property access `v[key]` at call sites where `v` is known not to be
`null` (JavaScript member access on `null` or `undefined` throws; the one
call site where the accessed value may be `null`, the spawn-zone loop,
models the throw explicitly in `spawnZoneChecksFrom`): `some` field value
on objects that carry the key, `none` (i.e. `undefined`) otherwise. -/
def getField : JValue → String → Option JValue
  | .obj fields, key => fields.lookup key
  | _, _ => none

mutual

/-- JavaScript `String(v)` coercion used by template literals (number
formatting idealised as rational `toString`). -/
def jsToString : JValue → String
  | .null => "null"
  | .bool true => "true"
  | .bool false => "false"
  | .num q => toString q
  | .str s => s
  | .arr elems => jsToStringList elems
  | .obj _ => "[object Object]"

/-- Embeds array stringification: elements stringified and joined by commas. -/
def jsToStringList : List JValue → String
  | [] => ""
  | [v] => jsToString v
  | v :: rest => jsToString v ++ "," ++ jsToStringList rest

end

/-- Embeds the check that an optional field value is a number. -/
def isNumberField : Option JValue → Bool
  | some (.num _) => true
  | _ => false

/-- Embeds `includes` on a JavaScript array of string literals: true
exactly when `v` is a string occurring in the list (`includes` compares
with strict equality, so non-strings never match). -/
def isStrIn (v : JValue) (l : List String) : Bool :=
  match v with
  | .str s => l.contains s
  | _ => false

/-- The validation record returned by `validateMission`. -/
structure ValidationResult where
  valid : Bool
  errors : List String
  warnings : List String
deriving DecidableEq, Repr

/-- A thrown JavaScript exception: `validateMission` can raise a
`TypeError` by accessing a property of a `null` (or `undefined`)
spawn-zone entry. -/
inductive JsError where
  | typeError : JsError
deriving DecidableEq, Repr

/-- The body of the `spawnZones.forEach` loop, processing the zones from
index `i` on: member access `zone.x` on a `null` entry throws a
`TypeError` (discarding everything accumulated so far, as the exception
propagates out of `validateMission`); otherwise the per-zone error
(`x`/`y` not numeric) and warning (a defined `count` that is not a
non-negative number) are collected in order. -/
def spawnZoneChecksFrom (i : ℕ) : List JValue → Except JsError (List String × List String)
  | [] => .ok ([], [])
  | zone :: rest =>
      match zone with
      | .null => .error .typeError
      | _ =>
          let zerr : List String :=
            if isNumberField (getField zone "x") && isNumberField (getField zone "y") then []
            else ["spawnZones[" ++ toString i ++ "] must have numeric x and y"]
          let zwarn : List String :=
            match getField zone "count" with
            | none => []
            | some c =>
                match c with
                | .num q =>
                    if q < 0 then
                      ["spawnZones[" ++ toString i ++ "].count should be a non-negative number"]
                    else []
                | _ => ["spawnZones[" ++ toString i ++ "].count should be a non-negative number"]
          match spawnZoneChecksFrom (i + 1) rest with
          | .error e => .error e
          | .ok p => .ok (zerr ++ p.1, zwarn ++ p.2)

/-- The spawn-zone part of `validateMission`: when the `spawnZones` field
is a (truthy) array its entries are checked in order, possibly throwing;
any other value of the field is skipped by the
`m.spawnZones && Array.isArray(m.spawnZones)` guard. -/
def spawnChecksOf (mission : JValue) : Except JsError (List String × List String) :=
  match getField mission "spawnZones" with
  | some (.arr zones) => spawnZoneChecksFrom 0 zones
  | _ => .ok ([], [])

/-- The difficulty warning of `validateMission`: a truthy difficulty value
outside the recognised list is flagged (with the default-to-medium note). -/
def difficultyWarning (d : Option JValue) : List String :=
  match d with
  | some v =>
      if truthy v && !(isStrIn v ["easy", "medium", "normal", "hard", "extreme"]) then
        ["Unknown difficulty \"" ++ jsToString v ++ "\", will default to medium"]
      else []
  | none => []

/-- The weather warning of `validateMission`: a truthy weather value
outside the recognised list is flagged. -/
def weatherWarning (w : Option JValue) : List String :=
  match w with
  | some v =>
      if truthy v && !(isStrIn v ["clear", "cloudy", "rain", "storm", "fog", "night"]) then
        ["Unknown weather \"" ++ jsToString v ++ "\""]
      else []
  | none => []

/-- The `errors` array `validateMission` accumulates, in push order: the
four required-field checks followed by the per-zone errors. -/
def missionErrors (mission : JValue) (zoneErrs : List String) : List String :=
  (if isNumberField (getField mission "missionId") then []
   else ["missionId must be a number"]) ++
  (match getField mission "name" with
   | some (.str s) => if s.trim = "" then ["name must be a non-empty string"] else []
   | _ => ["name must be a non-empty string"]) ++
  (match getField mission "mapIndex" with
   | some (.num q) => if q < 1 then ["mapIndex must be a positive number"] else []
   | _ => ["mapIndex must be a positive number"]) ++
  (match getField mission "playerStart" with
   | some ps =>
       if truthy ps && isNumberField (getField ps "x") && isNumberField (getField ps "y") then []
       else ["playerStart must have numeric x and y coordinates"]
   | none => ["playerStart must have numeric x and y coordinates"]) ++
  zoneErrs

/-- The `warnings` array `validateMission` accumulates, in push order: the
difficulty and weather warnings followed by the per-zone warnings. -/
def missionWarnings (mission : JValue) (zoneWarns : List String) : List String :=
  difficultyWarning (getField mission "difficulty") ++
    weatherWarning (getField mission "weather") ++ zoneWarns

/-- Embeds `validateMission(mission)`: the non-object early return, the
four required-field error checks, the difficulty and weather warnings, and
the spawn-zone checks; `valid` is `errors.length === 0`.  The function is
not total: a `null` entry of a `spawnZones` array makes the source throw a
`TypeError` (property access `zone.x` on `null`), modelled by the
`Except.error` result, which discards everything accumulated. -/
def validateMission (mission : JValue) : Except JsError ValidationResult :=
  if ¬ (truthy mission && typeofObject mission) then
    .ok ⟨false, ["Mission must be an object"], []⟩
  else
    match spawnChecksOf mission with
    | .error e => .error e
    | .ok zchecks =>
        .ok ⟨(missionErrors mission zchecks.1).isEmpty,
          missionErrors mission zchecks.1, missionWarnings mission zchecks.2⟩

noncomputable section

/-- Embeds `distance3D(x1,y1,z1,x2,y2,z2)`: plain Euclidean distance. -/
def distance3D (x1 y1 z1 x2 y2 z2 : ℝ) : ℝ :=
  let dx := x2 - x1
  let dy := y2 - y1
  let dz := z2 - z1
  Real.sqrt (dx * dx + dy * dy + dz * dz)

/-- The two sequential `if` corrections that `distance3DWrapped` (and
`findNearestTarget` when `mapSize > 0`) applies to a raw axis delta:
subtract `mapSize` if the delta exceeds `mapSize/2`, then add `mapSize`
if the (possibly corrected) delta is below `-mapSize/2`. -/
def wrapDelta (d mapSize : ℝ) : ℝ :=
  let half := mapSize / 2
  let d1 := if d > half then d - mapSize else d
  if d1 < -half then d1 + mapSize else d1

/-- Embeds `distance3DWrapped(x1,y1,z1,x2,y2,z2,mapSize)`: the x and y
deltas are wrap-corrected, the z delta never is. -/
def distance3DWrapped (x1 y1 z1 x2 y2 z2 mapSize : ℝ) : ℝ :=
  let dx := wrapDelta (x1 - x2) mapSize
  let dy := wrapDelta (y1 - y2) mapSize
  let dz := z1 - z2
  Real.sqrt (dx * dx + dy * dy + dz * dz)

/-- Embeds the first loop of `normalizeAngleToRange`:
`while (angle > PI) angle -= PI * 2`. -/
def reduceDown (angle : ℝ) : ℝ :=
  if h : angle > Real.pi then reduceDown (angle - Real.pi * 2) else angle
termination_by (⌈(angle - Real.pi) / (2 * Real.pi)⌉).toNat
decreasing_by
  have hpi := Real.pi_pos
  have h2 : (2 : ℝ) * Real.pi ≠ 0 := by positivity
  have hkey : (angle - Real.pi * 2 - Real.pi) / (2 * Real.pi)
      = (angle - Real.pi) / (2 * Real.pi) - 1 := by
    field_simp
    ring
  have hceil : ⌈(angle - Real.pi * 2 - Real.pi) / (2 * Real.pi)⌉
      = ⌈(angle - Real.pi) / (2 * Real.pi)⌉ - 1 := by
    rw [hkey, Int.ceil_sub_one]
  have hpos : 0 < ⌈(angle - Real.pi) / (2 * Real.pi)⌉ :=
    Int.ceil_pos.mpr (div_pos (by linarith) (by linarith))
  rw [hceil]
  omega

/-- Embeds the second loop of `normalizeAngleToRange`:
`while (angle < -PI) angle += PI * 2`. -/
def reduceUp (angle : ℝ) : ℝ :=
  if h : angle < -Real.pi then reduceUp (angle + Real.pi * 2) else angle
termination_by (⌈(-Real.pi - angle) / (2 * Real.pi)⌉).toNat
decreasing_by
  have hpi := Real.pi_pos
  have h2 : (2 : ℝ) * Real.pi ≠ 0 := by positivity
  have hkey : (-Real.pi - (angle + Real.pi * 2)) / (2 * Real.pi)
      = (-Real.pi - angle) / (2 * Real.pi) - 1 := by
    field_simp
    ring
  have hceil : ⌈(-Real.pi - (angle + Real.pi * 2)) / (2 * Real.pi)⌉
      = ⌈(-Real.pi - angle) / (2 * Real.pi)⌉ - 1 := by
    rw [hkey, Int.ceil_sub_one]
  have hpos : 0 < ⌈(-Real.pi - angle) / (2 * Real.pi)⌉ :=
    Int.ceil_pos.mpr (div_pos (by linarith) (by linarith))
  rw [hceil]
  omega

/-- Embeds `normalizeAngleToRange(angle)`: the two `while` loops run in
sequence. -/
def normalizeAngleToRange (angle : ℝ) : ℝ :=
  reduceUp (reduceDown angle)

/-- Number of iterations the first `while` loop performs on `angle`. -/
def reduceDownSteps (angle : ℝ) : ℕ :=
  if h : angle > Real.pi then reduceDownSteps (angle - Real.pi * 2) + 1 else 0
termination_by (⌈(angle - Real.pi) / (2 * Real.pi)⌉).toNat
decreasing_by
  have hpi := Real.pi_pos
  have h2 : (2 : ℝ) * Real.pi ≠ 0 := by positivity
  have hkey : (angle - Real.pi * 2 - Real.pi) / (2 * Real.pi)
      = (angle - Real.pi) / (2 * Real.pi) - 1 := by
    field_simp
    ring
  have hceil : ⌈(angle - Real.pi * 2 - Real.pi) / (2 * Real.pi)⌉
      = ⌈(angle - Real.pi) / (2 * Real.pi)⌉ - 1 := by
    rw [hkey, Int.ceil_sub_one]
  have hpos : 0 < ⌈(angle - Real.pi) / (2 * Real.pi)⌉ :=
    Int.ceil_pos.mpr (div_pos (by linarith) (by linarith))
  rw [hceil]
  omega

/-- Number of iterations the second `while` loop performs on `angle`. -/
def reduceUpSteps (angle : ℝ) : ℕ :=
  if h : angle < -Real.pi then reduceUpSteps (angle + Real.pi * 2) + 1 else 0
termination_by (⌈(-Real.pi - angle) / (2 * Real.pi)⌉).toNat
decreasing_by
  have hpi := Real.pi_pos
  have h2 : (2 : ℝ) * Real.pi ≠ 0 := by positivity
  have hkey : (-Real.pi - (angle + Real.pi * 2)) / (2 * Real.pi)
      = (-Real.pi - angle) / (2 * Real.pi) - 1 := by
    field_simp
    ring
  have hceil : ⌈(-Real.pi - (angle + Real.pi * 2)) / (2 * Real.pi)⌉
      = ⌈(-Real.pi - angle) / (2 * Real.pi)⌉ - 1 := by
    rw [hkey, Int.ceil_sub_one]
  have hpos : 0 < ⌈(-Real.pi - angle) / (2 * Real.pi)⌉ :=
    Int.ceil_pos.mpr (div_pos (by linarith) (by linarith))
  rw [hceil]
  omega

/-- Total number of loop iterations `normalizeAngleToRange` performs. -/
def normalizeAngleToRangeSteps (angle : ℝ) : ℕ :=
  reduceDownSteps angle + reduceUpSteps (reduceDown angle)

/-- A candidate as `findNearestTarget` sees it: an `x`/`y` position plus
arbitrary further payload (the `T extends TargetLike` type parameter). -/
structure TargetLike (α : Type) where
  x : ℝ
  y : ℝ
  data : α

/-- The per-candidate distance `findNearestTarget` computes: 2D Euclidean
distance from `(x, y)`, with both deltas wrap-corrected when `mapSize > 0`. -/
def targetDist {α : Type} (x y mapSize : ℝ) (t : TargetLike α) : ℝ :=
  let dx := if mapSize > 0 then wrapDelta (t.x - x) mapSize else t.x - x
  let dy := if mapSize > 0 then wrapDelta (t.y - y) mapSize else t.y - y
  Real.sqrt (dx * dx + dy * dy)

/-- The scanning loop of `findNearestTarget`: `nearest` and `nearestDist`
are the accumulator variables; `nearestDist` starts at `maxDist`
(`⊤` models the default `Infinity`) and a candidate is taken exactly when
its distance is strictly below the running best. -/
def findNearestGo {α : Type} (x y mapSize : ℝ) (filterFn : TargetLike α → Bool) :
    List (TargetLike α) → Option (TargetLike α) → WithTop ℝ → Option (TargetLike α)
  | [], nearest, _ => nearest
  | t :: rest, nearest, nearestDist =>
      if filterFn t = false then findNearestGo x y mapSize filterFn rest nearest nearestDist
      else
        let dist := targetDist x y mapSize t
        if (dist : WithTop ℝ) < nearestDist then
          findNearestGo x y mapSize filterFn rest (some t) (dist : WithTop ℝ)
        else
          findNearestGo x y mapSize filterFn rest nearest nearestDist

/-- Embeds `findNearestTarget(targets, x, y, maxDist, filterFn, mapSize)`;
the omitted-`filterFn` call sites correspond to a constantly-true filter
and the default `maxDist = Infinity` to `⊤`. -/
def findNearestTarget {α : Type} (targets : List (TargetLike α)) (x y : ℝ)
    (maxDist : WithTop ℝ) (filterFn : TargetLike α → Bool) (mapSize : ℝ) :
    Option (TargetLike α) :=
  findNearestGo x y mapSize filterFn targets none maxDist

/-- Following the words of the specification: the qualifying candidates are
those that pass the filter and whose distance is strictly below
`maxDist`. -/
def qualifying {α : Type} (targets : List (TargetLike α)) (x y : ℝ)
    (maxDist : WithTop ℝ) (filterFn : TargetLike α → Bool) (mapSize : ℝ) :
    List (TargetLike α) :=
  targets.filter fun t =>
    filterFn t && decide ((targetDist x y mapSize t : WithTop ℝ) < maxDist)

/-- Following the words of the specification, independently of the scanning
loop: `null` when no candidate qualifies, otherwise the earliest-scanned
qualifying candidate whose distance is minimal among the qualifying
candidates. -/
def specNearestTarget {α : Type} (targets : List (TargetLike α)) (x y : ℝ)
    (maxDist : WithTop ℝ) (filterFn : TargetLike α → Bool) (mapSize : ℝ) :
    Option (TargetLike α) :=
  let qs := qualifying targets x y maxDist filterFn mapSize
  qs.find? fun t => decide (∀ u ∈ qs, targetDist x y mapSize t ≤ targetDist x y mapSize u)

end

/-! ## Theorems -/

theorem normalizeDifficulty_mem (d : Option String) :
    normalizeDifficulty d ∈ (["easy", "medium", "hard", "extreme"] : List String) := by
  unfold normalizeDifficulty
  split
  · simp
  · split
    · split
      · rename_i h
        rcases h with h | h | h | h <;> simp [h]
      · simp
    · simp

theorem normalizeDifficulty_fixed (s : String)
    (hs : s ∈ (["easy", "medium", "hard", "extreme"] : List String)) :
    normalizeDifficulty (some s) = s := by
  fin_cases hs <;> rfl

/-- Claim C9: `normalizeDifficulty` maps `normal` to `medium`, maps
`undefined` and every unrecognised string to `medium`, maps the four
canonical levels to themselves, and is therefore idempotent. -/
theorem normalizeDifficulty_spec :
    normalizeDifficulty (some "normal") = "medium" ∧
    normalizeDifficulty none = "medium" ∧
    (∀ s : String, s ∉ (["easy", "medium", "hard", "extreme", "normal"] : List String) →
      normalizeDifficulty (some s) = "medium") ∧
    (∀ s : String, s ∈ (["easy", "medium", "hard", "extreme"] : List String) →
      normalizeDifficulty (some s) = s) ∧
    (∀ d : Option String,
      normalizeDifficulty (some (normalizeDifficulty d)) = normalizeDifficulty d) := by
  refine ⟨rfl, rfl, ?_, normalizeDifficulty_fixed, ?_⟩
  · intro s hs
    simp only [List.mem_cons, List.not_mem_nil, or_false, not_or] at hs
    obtain ⟨h1, h2, h3, h4, h5⟩ := hs
    simp [normalizeDifficulty, h1, h2, h3, h4, h5]
  · intro d
    exact normalizeDifficulty_fixed _ (normalizeDifficulty_mem d)

/-- Witness for C9 at the unrecognised difficulty `impossible` and the
canonical level `hard`. -/
theorem normalizeDifficulty_spec_witness :
    ("impossible" : String) ∉ (["easy", "medium", "hard", "extreme", "normal"] : List String) ∧
    normalizeDifficulty (some "impossible") = "medium" ∧
    normalizeDifficulty (some "hard") = "hard" :=
  ⟨by decide, normalizeDifficulty_spec.2.2.1 "impossible" (by decide),
    normalizeDifficulty_spec.2.2.2.1 "hard" (by decide)⟩


theorem le_foldl_max (c a : ℚ) (l : List ℚ) :
    a ≤ l.foldl (fun m x => max m |x - c|) a := by
  induction l generalizing a with
  | nil => simp
  | cons x xs ih => exact le_trans (le_max_left _ _) (ih (max a |x - c|))

theorem mem_le_foldl_max (c a : ℚ) (l : List ℚ) (s : ℚ) (hs : s ∈ l) :
    |s - c| ≤ l.foldl (fun m x => max m |x - c|) a := by
  induction l generalizing a with
  | nil => cases hs
  | cons x xs ih =>
    rcases List.mem_cons.mp hs with h | h
    · subst h
      exact le_trans (le_max_right _ _) (le_foldl_max c _ xs)
    · exact ih _ h

theorem foldl_max_eq_cases (c a : ℚ) (l : List ℚ) :
    l.foldl (fun m x => max m |x - c|) a = a ∨
      ∃ s ∈ l, l.foldl (fun m x => max m |x - c|) a = |s - c| := by
  induction l generalizing a with
  | nil => left; rfl
  | cons x xs ih =>
    rcases ih (max a |x - c|) with h | ⟨s, hs, h⟩
    · rcases max_cases a |x - c| with ⟨he, _⟩ | ⟨he, _⟩
      · left; rw [List.foldl_cons, h, he]
      · right; exact ⟨x, List.mem_cons_self _ _, by rw [List.foldl_cons, h, he]⟩
    · right; exact ⟨s, List.mem_cons_of_mem _ hs, by rw [List.foldl_cons, h]⟩

/-- Claim C4 (amended): `estimateSlopeFromSamples` returns `0` on empty and
single-element input, returns the maximum absolute deviation of the
neighbour samples from the centre sample, and on `[10, 40, 18]` returns
`30` (the example value `20` belongs to the input `[20, 40, 18]` used by
the repository test). -/
theorem estimateSlopeFromSamples_spec :
    estimateSlopeFromSamples [] = 0 ∧
    (∀ h : ℚ, estimateSlopeFromSamples [h] = 0) ∧
    (∀ (c : ℚ) (rest : List ℚ), rest ≠ [] →
      (∃ s ∈ rest, estimateSlopeFromSamples (c :: rest) = |s - c|) ∧
      (∀ s ∈ rest, |s - c| ≤ estimateSlopeFromSamples (c :: rest))) ∧
    estimateSlopeFromSamples [10, 40, 18] = 30 ∧
    estimateSlopeFromSamples [20, 40, 18] = 20 := by
  refine ⟨rfl, fun h => rfl, ?_,
    by simp [estimateSlopeFromSamples]; norm_num [abs_of_nonneg, abs_of_nonpos],
    by simp [estimateSlopeFromSamples]; norm_num [abs_of_nonneg, abs_of_nonpos]⟩
  intro c rest hrest
  have hlen : ¬ ((c :: rest).length ≤ 1) := by
    cases rest with
    | nil => exact absurd rfl hrest
    | cons a l => simp [List.length_cons]
  have hval : estimateSlopeFromSamples (c :: rest)
      = rest.foldl (fun m x => max m |x - c|) 0 := by
    unfold estimateSlopeFromSamples
    rw [if_neg hlen]
    simp
  constructor
  · rcases foldl_max_eq_cases c 0 rest with h | ⟨s, hs, h⟩
    · obtain ⟨s, hs⟩ := List.exists_mem_of_ne_nil rest hrest
      refine ⟨s, hs, ?_⟩
      have h1 := mem_le_foldl_max c 0 rest s hs
      rw [h] at h1
      rw [hval, h]
      exact (le_antisymm h1 (abs_nonneg _)).symm
    · exact ⟨s, hs, by rw [hval, h]⟩
  · intro s hs
    rw [hval]
    exact mem_le_foldl_max c 0 rest s hs

/-- Witness for C4 at the concrete input `[10, 40, 18]`. -/
theorem estimateSlopeFromSamples_spec_witness :
    ([40, 18] : List ℚ) ≠ [] ∧ (40 : ℚ) ∈ ([40, 18] : List ℚ) ∧
    |(40 : ℚ) - 10| ≤ estimateSlopeFromSamples [10, 40, 18] :=
  ⟨by decide, by decide,
    (estimateSlopeFromSamples_spec.2.2.1 10 [40, 18] (by decide)).2 40 (by decide)⟩

/-- Counterexample to C4 as stated: on `[10, 40, 18]` the code returns `30`
(the deviations from the centre `10` are `30` and `8`), not `20`. -/
theorem estimateSlopeFromSamples_cex :
    estimateSlopeFromSamples [10, 40, 18] ≠ 20 := by
  have h : estimateSlopeFromSamples [10, 40, 18] = 30 := by
    simp [estimateSlopeFromSamples]
    norm_num [abs_of_nonneg, abs_of_nonpos]
  rw [h]
  norm_num



/-- Claim C8: `getTargetDamageCategory` sets exactly one flag for each of
the five recognised target types, no flag for unrecognised types, and
never more than one flag for any string. -/
theorem getTargetDamageCategory_spec :
    getTargetDamageCategory "TANK" = ⟨true, false, false, false⟩ ∧
    getTargetDamageCategory "SAM_SITE" = ⟨true, false, false, false⟩ ∧
    getTargetDamageCategory "SOLDIER" = ⟨false, true, false, false⟩ ∧
    getTargetDamageCategory "BUILDING" = ⟨false, false, true, false⟩ ∧
    getTargetDamageCategory "HELICOPTER" = ⟨false, false, false, true⟩ ∧
    (∀ t : String,
      t ∉ (["TANK", "SAM_SITE", "SOLDIER", "BUILDING", "HELICOPTER"] : List String) →
      getTargetDamageCategory t = ⟨false, false, false, false⟩) ∧
    (∀ t : String, categoryFlagCount (getTargetDamageCategory t) ≤ 1) := by
  refine ⟨rfl, rfl, rfl, rfl, rfl, ?_, ?_⟩
  · intro t ht
    simp only [List.mem_cons, List.not_mem_nil, or_false, not_or] at ht
    obtain ⟨h1, h2, h3, h4, h5⟩ := ht
    simp [getTargetDamageCategory, h1, h2, h3, h4, h5]
  · intro t
    unfold getTargetDamageCategory
    split_ifs <;> decide

/-- Witness for C8 at the unrecognised target type `CONVOY`. -/
theorem getTargetDamageCategory_spec_witness :
    ("CONVOY" : String) ∉ (["TANK", "SAM_SITE", "SOLDIER", "BUILDING", "HELICOPTER"] : List String) ∧
    getTargetDamageCategory "CONVOY" = ⟨false, false, false, false⟩ :=
  ⟨by decide, getTargetDamageCategory_spec.2.2.2.2.2.1 "CONVOY" (by decide)⟩

/-- Helper: a lookup never misses every key: if no key of `l` equals `t`
then `l.lookup t = none`. -/
theorem lookup_eq_none_of_keys_ne {β : Type} {t : String} :
    ∀ {l : List (String × β)}, (∀ p ∈ l, p.1 ≠ t) → l.lookup t = none := by
  intro l
  induction l with
  | nil => intro _; rfl
  | cons p rest ih =>
    intro h
    obtain ⟨k, v⟩ := p
    have hk : k ≠ t := h (k, v) (List.mem_cons_self _ _)
    have hb : (t == k) = false := beq_eq_false_iff_ne.mpr (Ne.symm hk)
    simp only [List.lookup, hb]
    exact ih fun p hp => h p (List.mem_cons_of_mem _ hp)

/-- Helper: a successful lookup returns one of the stored values. -/
theorem lookup_some_mem_snd {β : Type} {w : String} {row : β} :
    ∀ {l : List (String × β)}, l.lookup w = some row → row ∈ l.map Prod.snd := by
  intro l
  induction l with
  | nil => intro h; simp [List.lookup] at h
  | cons p rest ih =>
    intro h
    obtain ⟨k, v⟩ := p
    by_cases hk : (w == k) = true
    · simp only [List.lookup, hk] at h
      injection h with h
      subst h
      simp
    · simp only [List.lookup, Bool.not_eq_true] at hk
      simp only [List.lookup, hk] at h
      exact List.mem_cons_of_mem _ (ih h)

/-- Claim C7: `getDamageMultiplier` returns the table value for present
pairs (sniper vs SOLDIER is `3`, cannon vs TANK is `1/2`), and exactly `1`
for every pair absent from the table, including unknown weapon or target
strings; it never raises an error (the embedding is total). -/
theorem getDamageMultiplier_spec :
    getDamageMultiplier "sniper" "SOLDIER" = 3 ∧
    getDamageMultiplier "cannon" "TANK" = 1 / 2 ∧
    (∀ (w t : String) (q : ℚ),
      ((DAMAGE_MULTIPLIERS.lookup w).bind fun row => row.lookup t) = some q →
      getDamageMultiplier w t = q) ∧
    (∀ w t : String,
      ((DAMAGE_MULTIPLIERS.lookup w).bind fun row => row.lookup t) = none →
      getDamageMultiplier w t = 1) ∧
    (∀ w : String,
      w ∉ (["cannon", "rocket", "missile", "bomb", "rifle", "sniper", "launcher"] : List String) →
      ∀ t : String, getDamageMultiplier w t = 1) ∧
    (∀ t : String,
      t ∉ (["TANK", "SAM_SITE", "SOLDIER", "BUILDING", "HELICOPTER"] : List String) →
      ∀ w : String, getDamageMultiplier w t = 1) := by
  refine ⟨by rfl, by rfl, ?_, ?_, ?_, ?_⟩
  · intro w t q h
    unfold getDamageMultiplier
    rw [h]
    rfl
  · intro w t h
    unfold getDamageMultiplier
    rw [h]
    rfl
  · intro w hw t
    simp only [List.mem_cons, List.not_mem_nil, or_false, not_or] at hw
    obtain ⟨h1, h2, h3, h4, h5, h6, h7⟩ := hw
    have hl : DAMAGE_MULTIPLIERS.lookup w = none := by
      apply lookup_eq_none_of_keys_ne
      intro p hp
      fin_cases hp <;> (intro he; subst he; simp_all)
    simp [getDamageMultiplier, hl]
  · intro t ht w
    simp only [List.mem_cons, List.not_mem_nil, or_false, not_or] at ht
    obtain ⟨g1, g2, g3, g4, g5⟩ := ht
    cases hl : DAMAGE_MULTIPLIERS.lookup w with
    | none => simp [getDamageMultiplier, hl]
    | some row =>
        have hrow := lookup_some_mem_snd hl
        have hnone : row.lookup t = none := by
          fin_cases hrow <;>
            · apply lookup_eq_none_of_keys_ne
              intro p hp
              fin_cases hp <;> (intro he; subst he; simp_all)
        simp [getDamageMultiplier, hl, hnone]

/-- Witness for C7 at unknown target `CONVOY` and unknown weapon `laser`. -/
theorem getDamageMultiplier_spec_witness :
    ("CONVOY" : String) ∉ (["TANK", "SAM_SITE", "SOLDIER", "BUILDING", "HELICOPTER"] : List String) ∧
    getDamageMultiplier "cannon" "CONVOY" = 1 ∧
    getDamageMultiplier "laser" "TANK" = 1 :=
  ⟨by decide, getDamageMultiplier_spec.2.2.2.2.2 "CONVOY" (by decide) "cannon",
    getDamageMultiplier_spec.2.2.2.2.1 "laser" (by decide) "TANK"⟩


theorem spawnZoneChecksFrom_ok (zones : List JValue) (h : ∀ z ∈ zones, z ≠ JValue.null) :
    ∀ i : ℕ, ∃ p, spawnZoneChecksFrom i zones = .ok p := by
  induction zones with
  | nil => intro i; exact ⟨([], []), rfl⟩
  | cons zone rest ih =>
    intro i
    have hz : zone ≠ JValue.null := h zone (List.mem_cons_self _ _)
    obtain ⟨p, hp⟩ := ih (fun z hzr => h z (List.mem_cons_of_mem _ hzr)) (i + 1)
    cases zone with
    | null => exact absurd rfl hz
    | bool b => exact ⟨_, by rw [spawnZoneChecksFrom, hp] <;> simp⟩
    | num q => exact ⟨_, by rw [spawnZoneChecksFrom, hp] <;> simp⟩
    | str t => exact ⟨_, by rw [spawnZoneChecksFrom, hp] <;> simp⟩
    | arr l => exact ⟨_, by rw [spawnZoneChecksFrom, hp] <;> simp⟩
    | obj f => exact ⟨_, by rw [spawnZoneChecksFrom, hp] <;> simp⟩

theorem spawnChecksOf_ok (v : JValue)
    (hv : ∀ zones, getField v "spawnZones" = some (.arr zones) → ∀ z ∈ zones, z ≠ JValue.null) :
    ∃ p, spawnChecksOf v = .ok p := by
  unfold spawnChecksOf
  cases hgf : getField v "spawnZones" with
  | none => exact ⟨_, rfl⟩
  | some w =>
      cases w with
      | arr zones => exact spawnZoneChecksFrom_ok zones (hv zones hgf) 0
      | null => exact ⟨_, rfl⟩
      | bool b => exact ⟨_, rfl⟩
      | num q => exact ⟨_, rfl⟩
      | str t => exact ⟨_, rfl⟩
      | obj g => exact ⟨_, rfl⟩

theorem validateMission_ok_valid_iff (v : JValue) (r : ValidationResult)
    (h : validateMission v = .ok r) : (r.valid = true) ↔ r.errors = [] := by
  unfold validateMission at h
  split at h
  · rw [Except.ok.injEq] at h
    rw [← h]
    simp
  · split at h
    · exact absurd h (by simp)
    · rw [Except.ok.injEq] at h
      rw [← h]
      simp [List.isEmpty_iff]

theorem validateMission_obj_ok_shape (f : List (String × JValue)) (r : ValidationResult)
    (h : validateMission (.obj f) = .ok r) :
    ∃ p, spawnChecksOf (.obj f) = .ok p ∧
      r.errors = missionErrors (.obj f) p.1 ∧
      r.warnings = missionWarnings (.obj f) p.2 := by
  unfold validateMission at h
  rw [if_neg (by simp [truthy, typeofObject])] at h
  split at h
  · exact absurd h (by simp)
  · rename_i p hp
    rw [Except.ok.injEq] at h
    exact ⟨p, hp, by rw [← h], by rw [← h]⟩


/-- Claim C6 (amended): `validateMission` returns a validation record —
with `valid` true exactly when `errors` is empty — for every JSON-like
value whose `spawnZones` entries (when present as an array) are non-null,
and on such records the difficulty and weather fields never influence
`errors`, while an unknown non-empty difficulty or weather string adds
the corresponding warning; a `null` spawn-zone entry instead raises a
`TypeError` (property access on `null`). -/
theorem validateMission_spec :
    (∀ (v : JValue) (r : ValidationResult), validateMission v = .ok r →
      ((r.valid = true) ↔ r.errors = [])) ∧
    (∀ v : JValue,
      (∀ zones, getField v "spawnZones" = some (.arr zones) → ∀ z ∈ zones, z ≠ JValue.null) →
      ∃ r, validateMission v = .ok r) ∧
    (∀ f₁ f₂ : List (String × JValue),
      (∀ k : String, k ≠ "difficulty" → k ≠ "weather" → f₁.lookup k = f₂.lookup k) →
      (validateMission (.obj f₁)).map (fun r => r.errors)
        = (validateMission (.obj f₂)).map (fun r => r.errors)) ∧
    (∀ (f : List (String × JValue)) (s : String) (r : ValidationResult),
      f.lookup "difficulty" = some (.str s) → s ≠ "" →
      s ∉ (["easy", "medium", "normal", "hard", "extreme"] : List String) →
      validateMission (.obj f) = .ok r →
      ("Unknown difficulty \"" ++ s ++ "\", will default to medium") ∈ r.warnings) ∧
    (∀ (f : List (String × JValue)) (s : String) (r : ValidationResult),
      f.lookup "weather" = some (.str s) → s ≠ "" →
      s ∉ (["clear", "cloudy", "rain", "storm", "fog", "night"] : List String) →
      validateMission (.obj f) = .ok r →
      ("Unknown weather \"" ++ s ++ "\"") ∈ r.warnings) := by
  refine ⟨validateMission_ok_valid_iff, ?_, ?_, ?_, ?_⟩
  · intro v hv
    obtain ⟨p, hp⟩ := spawnChecksOf_ok v hv
    unfold validateMission
    split
    · exact ⟨_, rfl⟩
    · rw [hp]
      exact ⟨_, rfl⟩
  · intro f₁ f₂ h
    have h1 := h "missionId" (by decide) (by decide)
    have h2 := h "name" (by decide) (by decide)
    have h3 := h "mapIndex" (by decide) (by decide)
    have h4 := h "playerStart" (by decide) (by decide)
    have h5 := h "spawnZones" (by decide) (by decide)
    have hsc : spawnChecksOf (.obj f₁) = spawnChecksOf (.obj f₂) := by
      unfold spawnChecksOf
      simp only [getField, h5]
    have herr : ∀ z : List String,
        missionErrors (.obj f₁) z = missionErrors (.obj f₂) z := by
      intro z
      unfold missionErrors
      simp only [getField, h1, h2, h3, h4]
    simp only [validateMission, truthy, typeofObject, Bool.and_self, not_true_eq_false,
      if_false, hsc]
    cases hsp : spawnChecksOf (.obj f₂) with
    | error e => rfl
    | ok p => simp [Except.map, herr]
  · intro f s r hl hs hmem hok
    have hcontains : (["easy", "medium", "normal", "hard", "extreme"] : List String).contains s
        = false := by simpa using hmem
    obtain ⟨p, _, _, hw⟩ := validateMission_obj_ok_shape f r hok
    rw [hw]
    unfold missionWarnings
    simp only [getField, hl]
    have hdw : difficultyWarning (some (.str s))
        = ["Unknown difficulty \"" ++ s ++ "\", will default to medium"] := by
      simp [difficultyWarning, truthy, isStrIn, hs, jsToString]
      simpa using hmem
    rw [hdw]
    simp
  · intro f s r hl hs hmem hok
    have hcontains : (["clear", "cloudy", "rain", "storm", "fog", "night"] : List String).contains s
        = false := by simpa using hmem
    obtain ⟨p, _, _, hw⟩ := validateMission_obj_ok_shape f r hok
    rw [hw]
    unfold missionWarnings
    simp only [getField, hl]
    have hww : weatherWarning (some (.str s)) = ["Unknown weather \"" ++ s ++ "\""] := by
      simp [weatherWarning, truthy, isStrIn, hs, jsToString]
      simpa using hmem
    rw [hww]
    simp

/-- Counterexample to C6 as stated: on a mission object whose `spawnZones`
array contains `null`, the source evaluates `zone.x` on `null` inside the
`forEach` and throws a `TypeError`, so `validateMission` does not return a
validation record for every JSON-like input. -/
theorem validateMission_cex :
    validateMission (.obj [("missionId", .num 1), ("name", .str "a"),
      ("mapIndex", .num 1), ("playerStart", .obj [("x", .num 0), ("y", .num 0)]),
      ("spawnZones", .arr [.null])]) = .error .typeError := by
  rfl


/-- Witness for C6 at a concrete mission object with difficulty
`impossible` (no spawn zones, so no throw). -/
theorem validateMission_spec_witness :
    validateMission (.obj [("missionId", .num 1), ("difficulty", .str "impossible")])
      = .ok ⟨false,
          ["name must be a non-empty string", "mapIndex must be a positive number",
            "playerStart must have numeric x and y coordinates"],
          ["Unknown difficulty \"" ++ "impossible" ++ "\", will default to medium"]⟩ ∧
    ((ValidationResult.mk false
        ["name must be a non-empty string", "mapIndex must be a positive number",
          "playerStart must have numeric x and y coordinates"]
        ["Unknown difficulty \"" ++ "impossible" ++ "\", will default to medium"]).valid = true ↔
      (ValidationResult.mk false
        ["name must be a non-empty string", "mapIndex must be a positive number",
          "playerStart must have numeric x and y coordinates"]
        ["Unknown difficulty \"" ++ "impossible" ++ "\", will default to medium"]).errors = []) ∧
    ("Unknown difficulty \"" ++ "impossible" ++ "\", will default to medium")
      ∈ (ValidationResult.mk false
          ["name must be a non-empty string", "mapIndex must be a positive number",
            "playerStart must have numeric x and y coordinates"]
          ["Unknown difficulty \"" ++ "impossible" ++ "\", will default to medium"]).warnings := by
  have heval : validateMission (.obj [("missionId", .num 1), ("difficulty", .str "impossible")])
      = .ok ⟨false,
          ["name must be a non-empty string", "mapIndex must be a positive number",
            "playerStart must have numeric x and y coordinates"],
          ["Unknown difficulty \"" ++ "impossible" ++ "\", will default to medium"]⟩ := by
    rfl
  exact ⟨heval, validateMission_spec.1 _ _ heval,
    validateMission_spec.2.2.2.1 [("missionId", .num 1), ("difficulty", .str "impossible")]
      "impossible" _ rfl (by decide) (by decide) heval⟩

theorem reduceDown_le_pi (a : ℝ) : reduceDown a ≤ Real.pi := by
  induction a using reduceDown.induct with
  | case1 x hx ih => rw [reduceDown.eq_def, dif_pos hx]; exact ih
  | case2 x hx => rw [reduceDown.eq_def, dif_neg hx]; exact le_of_not_lt hx

theorem reduceUp_neg_pi_le (b : ℝ) : -Real.pi ≤ reduceUp b := by
  induction b using reduceUp.induct with
  | case1 x hx ih => rw [reduceUp.eq_def, dif_pos hx]; exact ih
  | case2 x hx => rw [reduceUp.eq_def, dif_neg hx]; exact le_of_not_lt hx

theorem reduceUp_le_pi (b : ℝ) (hb : b ≤ Real.pi) : reduceUp b ≤ Real.pi := by
  induction b using reduceUp.induct with
  | case1 x hx ih =>
      rw [reduceUp.eq_def, dif_pos hx]
      have hpi := Real.pi_pos
      exact ih (by linarith)
  | case2 x hx => rw [reduceUp.eq_def, dif_neg hx]; exact hb

theorem reduceDown_modEq (a : ℝ) : ∃ k : ℤ, reduceDown a = a + 2 * Real.pi * k := by
  induction a using reduceDown.induct with
  | case1 x hx ih =>
      obtain ⟨k, hk⟩ := ih
      refine ⟨k - 1, ?_⟩
      rw [reduceDown.eq_def, dif_pos hx, hk]
      push_cast
      ring
  | case2 x hx =>
      refine ⟨0, ?_⟩
      rw [reduceDown.eq_def, dif_neg hx]
      push_cast
      ring

theorem reduceUp_modEq (b : ℝ) : ∃ k : ℤ, reduceUp b = b + 2 * Real.pi * k := by
  induction b using reduceUp.induct with
  | case1 x hx ih =>
      obtain ⟨k, hk⟩ := ih
      refine ⟨k + 1, ?_⟩
      rw [reduceUp.eq_def, dif_pos hx, hk]
      push_cast
      ring
  | case2 x hx =>
      refine ⟨0, ?_⟩
      rw [reduceUp.eq_def, dif_neg hx]
      push_cast
      ring

/-- Claim C5 (amended): for every real input angle,
`normalizeAngleToRange` returns a value in the closed interval from `-π`
to `π` that is equivalent to the input modulo `2π`. -/
theorem normalizeAngleToRange_spec (a : ℝ) :
    -Real.pi ≤ normalizeAngleToRange a ∧ normalizeAngleToRange a ≤ Real.pi ∧
    ∃ k : ℤ, normalizeAngleToRange a = a + 2 * Real.pi * k := by
  unfold normalizeAngleToRange
  refine ⟨reduceUp_neg_pi_le _, reduceUp_le_pi _ (reduceDown_le_pi a), ?_⟩
  obtain ⟨k1, h1⟩ := reduceDown_modEq a
  obtain ⟨k2, h2⟩ := reduceUp_modEq (reduceDown a)
  refine ⟨k1 + k2, ?_⟩
  rw [h2, h1]
  push_cast
  ring

/-- Counterexample to C5 as stated: the input `-π` is returned unchanged,
so the output is not always in the half-open interval excluding `-π`. -/
theorem normalizeAngleToRange_cex :
    normalizeAngleToRange (-Real.pi) = -Real.pi ∧
    ¬ (-Real.pi < normalizeAngleToRange (-Real.pi)) := by
  have hpi := Real.pi_pos
  have h1 : reduceDown (-Real.pi) = -Real.pi := by
    rw [reduceDown.eq_def, dif_neg]
    intro hcon
    linarith
  have h2 : reduceUp (-Real.pi) = -Real.pi := by
    rw [reduceUp.eq_def, dif_neg]
    exact lt_irrefl _
  have he : normalizeAngleToRange (-Real.pi) = -Real.pi := by
    unfold normalizeAngleToRange
    rw [h1, h2]
  exact ⟨he, by rw [he]; exact lt_irrefl _⟩


theorem reduceUpSteps_eq_zero (b : ℝ) (hb : -Real.pi ≤ b) : reduceUpSteps b = 0 := by
  rw [reduceUpSteps.eq_def, dif_neg (not_lt.mpr hb)]

theorem reduceDown_ge_neg_pi (a : ℝ) (ha : -Real.pi ≤ a) : -Real.pi ≤ reduceDown a := by
  induction a using reduceDown.induct with
  | case1 x hx ih =>
      have hpi := Real.pi_pos
      rw [reduceDown.eq_def, dif_pos hx]
      exact ih (by linarith)
  | case2 x hx => rw [reduceDown.eq_def, dif_neg hx]; exact ha

theorem reduceDownSteps_le (a : ℝ) (ha : a > Real.pi) :
    (reduceDownSteps a : ℝ) ≤ (a - Real.pi) / (2 * Real.pi) + 1 := by
  induction a using reduceDownSteps.induct with
  | case1 x hx ih =>
      have hpi := Real.pi_pos
      rw [reduceDownSteps.eq_def, dif_pos hx]
      by_cases hx2 : x - Real.pi * 2 > Real.pi
      · have hb := ih hx2
        have hdiv : (x - Real.pi * 2 - Real.pi) / (2 * Real.pi)
            = (x - Real.pi) / (2 * Real.pi) - 1 := by
          field_simp
          ring
        push_cast
        rw [hdiv] at hb
        linarith
      · rw [reduceDownSteps.eq_def, dif_neg hx2]
        have hdiv : 0 < (x - Real.pi) / (2 * Real.pi) :=
          div_pos (by linarith) (by linarith)
        push_cast
        linarith
  | case2 x hx => exact absurd ha hx

theorem reduceUpSteps_le (a : ℝ) (ha : a < -Real.pi) :
    (reduceUpSteps a : ℝ) ≤ (-Real.pi - a) / (2 * Real.pi) + 1 := by
  induction a using reduceUpSteps.induct with
  | case1 x hx ih =>
      have hpi := Real.pi_pos
      rw [reduceUpSteps.eq_def, dif_pos hx]
      by_cases hx2 : x + Real.pi * 2 < -Real.pi
      · have hb := ih hx2
        have hdiv : (-Real.pi - (x + Real.pi * 2)) / (2 * Real.pi)
            = (-Real.pi - x) / (2 * Real.pi) - 1 := by
          field_simp
          ring
        push_cast
        rw [hdiv] at hb
        linarith
      · rw [reduceUpSteps.eq_def, dif_neg hx2]
        have hdiv : 0 < (-Real.pi - x) / (2 * Real.pi) :=
          div_pos (by linarith) (by linarith)
        push_cast
        linarith
  | case2 x hx => exact absurd ha hx

/-- Claim C10: both `while` loops of `normalizeAngleToRange` terminate on
every real input (the embedding is total by well-founded recursion), and
the total iteration count is bounded by the magnitude of the angle divided
by `2π`, plus one. -/
theorem normalizeAngleToRangeSteps_bound (a : ℝ) :
    (normalizeAngleToRangeSteps a : ℝ) ≤ |a| / (2 * Real.pi) + 1 := by
  have hpi := Real.pi_pos
  unfold normalizeAngleToRangeSteps
  by_cases ha : a > Real.pi
  · have h1 := reduceDownSteps_le a ha
    have h2 : reduceUpSteps (reduceDown a) = 0 :=
      reduceUpSteps_eq_zero _ (reduceDown_ge_neg_pi a (by linarith))
    have habs : |a| = a := abs_of_pos (by linarith)
    have hdiv : (a - Real.pi) / (2 * Real.pi) = a / (2 * Real.pi) - 1 / 2 := by
      field_simp
      ring
    rw [h2]
    push_cast
    rw [habs]
    linarith [hdiv ▸ h1]
  · have hd0 : reduceDownSteps a = 0 := by
      rw [reduceDownSteps.eq_def, dif_neg ha]
    have hda : reduceDown a = a := by
      rw [reduceDown.eq_def, dif_neg ha]
    by_cases hb : a < -Real.pi
    · have h2 := reduceUpSteps_le a hb
      have habs : |a| = -a := abs_of_neg (by linarith)
      have hdiv : (-Real.pi - a) / (2 * Real.pi) = -a / (2 * Real.pi) - 1 / 2 := by
        field_simp
        ring
      rw [hd0, hda]
      push_cast
      rw [habs]
      linarith [hdiv ▸ h2]
    · have h2 : reduceUpSteps a = 0 := reduceUpSteps_eq_zero a (not_lt.mp hb)
      rw [hd0, hda, h2]
      have : (0 : ℝ) ≤ |a| / (2 * Real.pi) := div_nonneg (abs_nonneg a) (by linarith)
      push_cast
      linarith

theorem distance3DWrapped_def (x1 y1 z1 x2 y2 z2 m : ℝ) :
    distance3DWrapped x1 y1 z1 x2 y2 z2 m
      = Real.sqrt (wrapDelta (x1 - x2) m * wrapDelta (x1 - x2) m
          + wrapDelta (y1 - y2) m * wrapDelta (y1 - y2) m
          + (z1 - z2) * (z1 - z2)) := rfl

theorem distance3D_def (x1 y1 z1 x2 y2 z2 : ℝ) :
    distance3D x1 y1 z1 x2 y2 z2
      = Real.sqrt ((x2 - x1) * (x2 - x1) + (y2 - y1) * (y2 - y1)
          + (z2 - z1) * (z2 - z1)) := rfl

theorem mul_self_le_of_abs_le {a b : ℝ} (h : |a| ≤ |b|) : a * a ≤ b * b := by
  calc a * a = |a| * |a| := (abs_mul_abs_self a).symm
    _ ≤ |b| * |b| := mul_le_mul h h (abs_nonneg a) (abs_nonneg b)
    _ = b * b := abs_mul_abs_self b

theorem abs_wrapDelta_le (d m : ℝ) (hm : 0 ≤ m) : |wrapDelta d m| ≤ |d| := by
  simp only [wrapDelta]
  split_ifs with h1 h2 h3
  · exact absurd h2 (by push_neg; linarith)
  · have hd : 0 < d := by linarith
    rw [abs_of_pos hd]
    exact abs_le.mpr ⟨by linarith, by linarith⟩
  · have hd : d < 0 := by linarith
    rw [abs_of_neg hd]
    exact abs_le.mpr ⟨by linarith, by linarith⟩
  · exact le_refl _

theorem wrapDelta_eq_self (d m : ℝ) (h : |d| ≤ m / 2) : wrapDelta d m = d := by
  obtain ⟨hl, hr⟩ := abs_le.mp h
  simp only [wrapDelta]
  rw [if_neg (not_lt.mpr hr), if_neg (not_lt.mpr hl)]

theorem wrapDelta_modEq (d m : ℝ) : ∃ j : ℤ, wrapDelta d m = d + j * m := by
  simp only [wrapDelta]
  split_ifs with h1 h2 h3
  · exact ⟨0, by push_cast; ring⟩
  · exact ⟨-1, by push_cast; ring⟩
  · exact ⟨1, by push_cast; ring⟩
  · exact ⟨0, by push_cast; ring⟩

theorem abs_wrapDelta_le_half (d m : ℝ) (hm : 0 < m) (hd : |d| ≤ 3 * m / 2) :
    |wrapDelta d m| ≤ m / 2 := by
  obtain ⟨hl, hr⟩ := abs_le.mp hd
  simp only [wrapDelta]
  split_ifs with h1 h2 h3
  · exact absurd h2 (by push_neg; linarith)
  · exact abs_le.mpr ⟨by linarith, by linarith⟩
  · exact abs_le.mpr ⟨by linarith, by linarith⟩
  · exact abs_le.mpr ⟨by linarith, by linarith⟩

theorem sq_le_sq_add_int_mul (w m : ℝ) (hm : 0 < m) (hw : |w| ≤ m / 2) (n : ℤ) :
    w * w ≤ (w + n * m) * (w + n * m) := by
  rcases eq_or_ne n 0 with rfl | hn
  · push_cast
    norm_num
  · have h1 : (1 : ℝ) ≤ |(n : ℝ)| := by exact_mod_cast Int.one_le_abs hn
    have h2 : m ≤ |(n : ℝ) * m| := by
      rw [abs_mul, abs_of_pos hm]
      nlinarith
    have h3 : |(n : ℝ) * m| - |(-w)| ≤ |(n : ℝ) * m - -w| := abs_sub_abs_le_abs_sub _ _
    have h4 : |w| ≤ |w + (n : ℝ) * m| := by
      rw [abs_neg] at h3
      have he : (n : ℝ) * m - -w = w + n * m := by ring
      rw [he] at h3
      linarith
    exact mul_self_le_of_abs_le h4


/-- Claim C2 (amended): for every `mapSize ≥ 0`, the wrapped distance is
at most the raw distance, with equality whenever no per-axis raw
difference exceeds `mapSize / 2` in absolute value. -/
theorem distance3DWrapped_le_distance3D (x1 y1 z1 x2 y2 z2 m : ℝ) :
    (0 ≤ m → distance3DWrapped x1 y1 z1 x2 y2 z2 m ≤ distance3D x1 y1 z1 x2 y2 z2) ∧
    (|x1 - x2| ≤ m / 2 → |y1 - y2| ≤ m / 2 →
      distance3DWrapped x1 y1 z1 x2 y2 z2 m = distance3D x1 y1 z1 x2 y2 z2) := by
  constructor
  · intro hm
    rw [distance3DWrapped_def, distance3D_def]
    apply Real.sqrt_le_sqrt
    have hx : wrapDelta (x1 - x2) m * wrapDelta (x1 - x2) m ≤ (x2 - x1) * (x2 - x1) := by
      have he : (x2 - x1) * (x2 - x1) = (x1 - x2) * (x1 - x2) := by ring
      rw [he]
      exact mul_self_le_of_abs_le
        (le_trans (abs_wrapDelta_le (x1 - x2) m hm) (le_refl _))
    have hy : wrapDelta (y1 - y2) m * wrapDelta (y1 - y2) m ≤ (y2 - y1) * (y2 - y1) := by
      have he : (y2 - y1) * (y2 - y1) = (y1 - y2) * (y1 - y2) := by ring
      rw [he]
      exact mul_self_le_of_abs_le
        (le_trans (abs_wrapDelta_le (y1 - y2) m hm) (le_refl _))
    have hz : (z1 - z2) * (z1 - z2) = (z2 - z1) * (z2 - z1) := by ring
    linarith
  · intro hx hy
    rw [distance3DWrapped_def, distance3D_def,
      wrapDelta_eq_self _ _ hx, wrapDelta_eq_self _ _ hy]
    congr 1
    ring

/-- Witness for C2 at concrete points and `mapSize = 100`. -/
theorem distance3DWrapped_le_distance3D_witness :
    (0 : ℝ) ≤ 100 ∧ |(10 : ℝ) - 5| ≤ 100 / 2 ∧ |(0 : ℝ) - 0| ≤ 100 / 2 ∧
    distance3DWrapped 10 0 0 5 0 0 100 ≤ distance3D 10 0 0 5 0 0 ∧
    distance3DWrapped 10 0 0 5 0 0 100 = distance3D 10 0 0 5 0 0 := by
  have h1 : (0 : ℝ) ≤ 100 := by norm_num
  have h2 : |(10 : ℝ) - 5| ≤ 100 / 2 := by
    rw [show ((10 : ℝ) - 5) = 5 by norm_num]
    rw [abs_of_pos] <;> norm_num
  have h3 : |(0 : ℝ) - 0| ≤ 100 / 2 := by
    rw [show ((0 : ℝ) - 0) = 0 by norm_num]
    norm_num
  exact ⟨h1, h2, h3, (distance3DWrapped_le_distance3D 10 0 0 5 0 0 100).1 h1,
    (distance3DWrapped_le_distance3D 10 0 0 5 0 0 100).2 h2 h3⟩

/-- Counterexample to C2 as stated: with `mapSize = -100` the wrap correction fires on a
zero delta and *increases* the distance, so wrapped ≤ raw fails. -/
theorem distance3DWrapped_le_distance3D_cex :
    ¬ (distance3DWrapped 0 0 0 0 0 0 (-100) ≤ distance3D 0 0 0 0 0 0) := by
  have e0 : wrapDelta ((0 : ℝ) - 0) (-100) = 100 := by
    norm_num [wrapDelta]
  have e1 : distance3DWrapped 0 0 0 0 0 0 (-100) = Real.sqrt 20000 := by
    rw [distance3DWrapped_def, e0]
    norm_num
  have e2 : distance3D 0 0 0 0 0 0 = 0 := by
    rw [distance3D_def]
    norm_num
  rw [e1, e2, not_le]
  have : (0 : ℝ) < 20000 := by norm_num
  exact Real.sqrt_pos.mpr this


/-- Claim C1 (amended): for positive `mapSize` and points whose raw x and
y differences are at most `1.5 * mapSize` in absolute value,
`distance3DWrapped` is a lower bound on the distance to every periodic
image of the second point and attains it at some image; the z axis is
never wrapped. -/
theorem distance3DWrapped_min_image (x1 y1 z1 x2 y2 z2 m : ℝ) (hm : 0 < m)
    (hx : |x1 - x2| ≤ 3 * m / 2) (hy : |y1 - y2| ≤ 3 * m / 2) :
    (∀ k l : ℤ, distance3DWrapped x1 y1 z1 x2 y2 z2 m
        ≤ distance3D x1 y1 z1 (x2 + k * m) (y2 + l * m) z2) ∧
    (∃ k l : ℤ, distance3DWrapped x1 y1 z1 x2 y2 z2 m
        = distance3D x1 y1 z1 (x2 + k * m) (y2 + l * m) z2) := by
  obtain ⟨jx, hjx⟩ := wrapDelta_modEq (x1 - x2) m
  obtain ⟨jy, hjy⟩ := wrapDelta_modEq (y1 - y2) m
  have hwx := abs_wrapDelta_le_half (x1 - x2) m hm hx
  have hwy := abs_wrapDelta_le_half (y1 - y2) m hm hy
  constructor
  · intro k l
    rw [distance3DWrapped_def, distance3D_def]
    apply Real.sqrt_le_sqrt
    have hxineq : wrapDelta (x1 - x2) m * wrapDelta (x1 - x2) m
        ≤ (x2 + (k : ℝ) * m - x1) * (x2 + (k : ℝ) * m - x1) := by
      have h5 := sq_le_sq_add_int_mul (wrapDelta (x1 - x2) m) m hm hwx (-(jx + k))
      have he : (x2 + (k : ℝ) * m - x1) * (x2 + (k : ℝ) * m - x1)
          = (wrapDelta (x1 - x2) m + (-(jx + k) : ℤ) * m)
            * (wrapDelta (x1 - x2) m + (-(jx + k) : ℤ) * m) := by
        rw [hjx]
        push_cast
        ring
      rw [he]
      exact h5
    have hyineq : wrapDelta (y1 - y2) m * wrapDelta (y1 - y2) m
        ≤ (y2 + (l : ℝ) * m - y1) * (y2 + (l : ℝ) * m - y1) := by
      have h5 := sq_le_sq_add_int_mul (wrapDelta (y1 - y2) m) m hm hwy (-(jy + l))
      have he : (y2 + (l : ℝ) * m - y1) * (y2 + (l : ℝ) * m - y1)
          = (wrapDelta (y1 - y2) m + (-(jy + l) : ℤ) * m)
            * (wrapDelta (y1 - y2) m + (-(jy + l) : ℤ) * m) := by
        rw [hjy]
        push_cast
        ring
      rw [he]
      exact h5
    have hz : (z1 - z2) * (z1 - z2) = (z2 - z1) * (z2 - z1) := by ring
    linarith
  · refine ⟨-jx, -jy, ?_⟩
    rw [distance3DWrapped_def, distance3D_def]
    congr 1
    have hex : x2 + ((-jx : ℤ) : ℝ) * m - x1 = -(wrapDelta (x1 - x2) m) := by
      rw [hjx]
      push_cast
      ring
    have hey : y2 + ((-jy : ℤ) : ℝ) * m - y1 = -(wrapDelta (y1 - y2) m) := by
      rw [hjy]
      push_cast
      ring
    rw [hex, hey]
    ring

/-- Witness for C1 at the points of the specification example on a map of
size `100`, with the periodic image shifted by one map width in x. -/
theorem distance3DWrapped_min_image_witness :
    (0 : ℝ) < 100 ∧ |(95 : ℝ) - 5| ≤ 3 * 100 / 2 ∧ |(50 : ℝ) - 50| ≤ 3 * 100 / 2 ∧
    distance3DWrapped 95 50 0 5 50 0 100
      ≤ distance3D 95 50 0 (5 + ((1 : ℤ) : ℝ) * 100) (50 + ((0 : ℤ) : ℝ) * 100) 0 := by
  have h1 : (0 : ℝ) < 100 := by norm_num
  have h2 : |(95 : ℝ) - 5| ≤ 3 * 100 / 2 := by
    rw [show ((95 : ℝ) - 5) = 90 by norm_num]
    rw [abs_of_pos] <;> norm_num
  have h3 : |(50 : ℝ) - 50| ≤ 3 * 100 / 2 := by
    rw [show ((50 : ℝ) - 50) = 0 by norm_num]
    norm_num
  exact ⟨h1, h2, h3, (distance3DWrapped_min_image 95 50 0 5 50 0 100 h1 h2 h3).1 1 0⟩

/-- Counterexample to C1 as stated: for points whose raw x-delta is `250` on a map of
even size `100`, the single `if` correction leaves a delta of `150`, while
the periodic image shifted by `2 * 100` is at distance `50`; the function
does not return the minimum over all periodic images. -/
theorem distance3DWrapped_min_image_cex :
    distance3D 250 0 0 (0 + (2 : ℤ) * 100) (0 + (0 : ℤ) * 100) 0
      < distance3DWrapped 250 0 0 0 0 0 100 := by
  have e0 : wrapDelta ((250 : ℝ) - 0) 100 = 150 := by
    norm_num [wrapDelta]
  have e0' : wrapDelta ((0 : ℝ) - 0) 100 = 0 := by
    norm_num [wrapDelta]
  have e1 : distance3DWrapped 250 0 0 0 0 0 100 = 150 := by
    rw [distance3DWrapped_def, e0, e0']
    rw [show (150 * 150 + 0 * 0 + ((0 : ℝ) - 0) * ((0 : ℝ) - 0)) = 150 ^ 2 by norm_num]
    exact Real.sqrt_sq (by norm_num)
  have e2 : distance3D 250 0 0 (0 + ((2 : ℤ) : ℝ) * 100) (0 + ((0 : ℤ) : ℝ) * 100) 0 = 50 := by
    rw [distance3D_def]
    push_cast
    rw [show ((0 + 2 * 100 - 250) * (0 + 2 * 100 - 250) + (0 + 0 * 100 - 0) * (0 + 0 * 100 - 0)
      + ((0 : ℝ) - 0) * ((0 : ℝ) - 0)) = 50 ^ 2 by norm_num]
    exact Real.sqrt_sq (by norm_num)
  rw [e2, e1]
  norm_num

theorem find?_congr_mem {T : Type} {p q : T → Bool} :
    ∀ {S : List T}, (∀ u ∈ S, p u = q u) → S.find? p = S.find? q := by
  intro S
  induction S with
  | nil => intro _; rfl
  | cons u S₀ ih =>
    intro h
    have hu := h u (List.mem_cons_self _ _)
    rw [List.find?_cons, List.find?_cons, hu]
    cases q u with
    | true => rfl
    | false => exact ih fun w hw => h w (List.mem_cons_of_mem _ hw)

theorem find?_filter_of_imp {T : Type} {p q : T → Bool} :
    ∀ {S : List T}, (∀ u ∈ S, p u = true → q u = true) →
      (S.filter q).find? p = S.find? p := by
  intro S
  induction S with
  | nil => intro _; rfl
  | cons u S₀ ih =>
    intro h
    have ih' := ih fun w hw => h w (List.mem_cons_of_mem _ hw)
    rw [List.filter_cons]
    by_cases hq : q u = true
    · rw [if_pos hq, List.find?_cons, List.find?_cons]
      cases hp : p u with
      | true => rfl
      | false => exact ih'
    · rw [if_neg hq, List.find?_cons]
      have hp : p u = false := by
        cases hp : p u with
        | true => exact absurd (h u (List.mem_cons_self _ _) hp) hq
        | false => rfl
      rw [hp]
      exact ih'

theorem exists_list_min {T : Type} (dist : T → ℝ) :
    ∀ (S : List T), S ≠ [] → ∃ w ∈ S, ∀ u ∈ S, dist w ≤ dist u := by
  intro S
  induction S with
  | nil => intro h; exact absurd rfl h
  | cons u S₀ ih =>
    intro _
    rcases eq_or_ne S₀ [] with rfl | hS₀
    · exact ⟨u, List.mem_cons_self _ _, by
        intro w hw
        rcases List.mem_singleton.mp hw with rfl
        exact le_refl _⟩
    · obtain ⟨w, hw, hmin⟩ := ih hS₀
      by_cases hc : dist u ≤ dist w
      · refine ⟨u, List.mem_cons_self _ _, ?_⟩
        intro v hv
        rcases List.mem_cons.mp hv with rfl | hv
        · exact le_refl _
        · exact le_trans hc (hmin v hv)
      · refine ⟨w, List.mem_cons_of_mem _ hw, ?_⟩
        intro v hv
        rcases List.mem_cons.mp hv with rfl | hv
        · exact le_of_not_le hc
        · exact hmin v hv


theorem findNearestGo_eq {α : Type} (x y mapSize : ℝ) (filterFn : TargetLike α → Bool) :
    ∀ (l : List (TargetLike α)) (nearest : Option (TargetLike α)) (nd : WithTop ℝ),
      findNearestGo x y mapSize filterFn l nearest nd
        = Option.or
            ((qualifying l x y nd filterFn mapSize).find? fun t =>
              decide (∀ u ∈ qualifying l x y nd filterFn mapSize,
                targetDist x y mapSize t ≤ targetDist x y mapSize u))
            nearest := by
  intro l
  induction l with
  | nil =>
    intro nearest nd
    simp [findNearestGo, qualifying]
  | cons t rest ih =>
    intro nearest nd
    by_cases hf : filterFn t = false
    · have hq : qualifying (t :: rest) x y nd filterFn mapSize
          = qualifying rest x y nd filterFn mapSize := by
        simp [qualifying, List.filter_cons, hf]
      simp only [findNearestGo, if_pos hf]
      rw [hq, ih]
    · have hft : filterFn t = true := by
        cases h : filterFn t with
        | true => rfl
        | false => exact absurd h hf
      by_cases hd : (targetDist x y mapSize t : WithTop ℝ) < nd
      · -- candidate qualifies: taken, threshold drops to its distance
        have hq : qualifying (t :: rest) x y nd filterFn mapSize
            = t :: qualifying rest x y nd filterFn mapSize := by
          simp [qualifying, List.filter_cons, hft, hd]
        simp only [findNearestGo, if_neg hf, if_pos hd]
        rw [ih (some t) (targetDist x y mapSize t : WithTop ℝ), hq]
        by_cases hA : ∀ u ∈ qualifying rest x y nd filterFn mapSize,
            targetDist x y mapSize t ≤ targetDist x y mapSize u
        · -- the head is already minimal: the refined scan finds nothing
          have hQ' : qualifying rest x y (targetDist x y mapSize t : WithTop ℝ)
              filterFn mapSize = [] := by
            apply List.filter_eq_nil_iff.mpr
            intro u hu hcontra
            rw [Bool.and_eq_true, decide_eq_true_iff] at hcontra
            obtain ⟨hfu, hdu⟩ := hcontra
            have huS : u ∈ qualifying rest x y nd filterFn mapSize := by
              apply List.mem_filter.mpr
              refine ⟨hu, ?_⟩
              rw [Bool.and_eq_true, decide_eq_true_iff]
              exact ⟨hfu, lt_trans hdu hd⟩
            have h1 := hA u huS
            have h2 := WithTop.coe_lt_coe.mp hdu
            exact absurd h1 (not_le.mpr h2)
          have hpt : (decide (∀ u ∈ t :: qualifying rest x y nd filterFn mapSize,
              targetDist x y mapSize t ≤ targetDist x y mapSize u)) = true := by
            rw [decide_eq_true_iff]
            intro u hu
            rcases List.mem_cons.mp hu with rfl | hu
            · exact le_refl _
            · exact hA u hu
          rw [hQ']
          rw [List.find?_cons, hpt]
          rfl
        · -- some later qualifying candidate is strictly closer
          push_neg at hA
          obtain ⟨v, hv, hvd⟩ := hA
          have hvd : targetDist x y mapSize v < targetDist x y mapSize t := hvd
          have hSne : qualifying rest x y nd filterFn mapSize ≠ [] := by
            intro hcon
            rw [hcon] at hv
            exact absurd hv (List.not_mem_nil v)
          obtain ⟨w₀, hw₀, hmin⟩ :=
            exists_list_min (targetDist x y mapSize)
              (qualifying rest x y nd filterFn mapSize) hSne
          have hμt : targetDist x y mapSize w₀ < targetDist x y mapSize t :=
            lt_of_le_of_lt (hmin v hv) hvd
          -- R1: over t :: S the global-minimum test equals the μ test
          have hR1 : (t :: qualifying rest x y nd filterFn mapSize).find?
                (fun u => decide (∀ w ∈ t :: qualifying rest x y nd filterFn mapSize,
                  targetDist x y mapSize u ≤ targetDist x y mapSize w))
              = (t :: qualifying rest x y nd filterFn mapSize).find?
                (fun u => decide (targetDist x y mapSize u ≤ targetDist x y mapSize w₀)) := by
            apply find?_congr_mem
            intro u _
            rw [decide_eq_decide]
            constructor
            · intro h
              exact h w₀ (List.mem_cons_of_mem _ hw₀)
            · intro h w hw
              rcases List.mem_cons.mp hw with rfl | hw
              · exact le_trans h (le_of_lt hμt)
              · exact le_trans h (hmin w hw)
          -- R2: the head fails the μ test
          have hR2 : (t :: qualifying rest x y nd filterFn mapSize).find?
                (fun u => decide (targetDist x y mapSize u ≤ targetDist x y mapSize w₀))
              = (qualifying rest x y nd filterFn mapSize).find?
                (fun u => decide (targetDist x y mapSize u ≤ targetDist x y mapSize w₀)) := by
            rw [List.find?_cons, decide_eq_false (not_le.mpr hμt)]
          -- L1: the refined qualifying list is the strict-closer filter of S
          have hL1 : qualifying rest x y (targetDist x y mapSize t : WithTop ℝ)
                filterFn mapSize
              = (qualifying rest x y nd filterFn mapSize).filter
                (fun u => decide ((targetDist x y mapSize u : WithTop ℝ)
                  < (targetDist x y mapSize t : WithTop ℝ))) := by
            unfold qualifying
            rw [List.filter_filter]
            apply List.filter_congr
            intro u _
            by_cases hfu : filterFn u = true
            · by_cases hut : (targetDist x y mapSize u : WithTop ℝ)
                  < (targetDist x y mapSize t : WithTop ℝ)
              · have hun : (targetDist x y mapSize u : WithTop ℝ) < nd := lt_trans hut hd
                simp [hfu, hut, hun]
              · simp [hfu, hut]
            · have hfu' : filterFn u = false := by
                cases h : filterFn u with
                | true => exact absurd h hfu
                | false => rfl
              simp [hfu']
          -- L2: over the refined list the global-minimum test equals the μ test
          have hw₀Q : w₀ ∈ qualifying rest x y (targetDist x y mapSize t : WithTop ℝ)
              filterFn mapSize := by
            rw [hL1]
            apply List.mem_filter.mpr
            exact ⟨hw₀, by rw [decide_eq_true_iff]; exact WithTop.coe_lt_coe.mpr hμt⟩
          have hL2 : (qualifying rest x y (targetDist x y mapSize t : WithTop ℝ)
                filterFn mapSize).find?
                (fun u => decide (∀ w ∈ qualifying rest x y
                    (targetDist x y mapSize t : WithTop ℝ) filterFn mapSize,
                  targetDist x y mapSize u ≤ targetDist x y mapSize w))
              = (qualifying rest x y (targetDist x y mapSize t : WithTop ℝ)
                filterFn mapSize).find?
                (fun u => decide (targetDist x y mapSize u ≤ targetDist x y mapSize w₀)) := by
            apply find?_congr_mem
            intro u _
            rw [decide_eq_decide]
            constructor
            · intro h
              exact h w₀ hw₀Q
            · intro h w hw
              rw [hL1] at hw
              exact le_trans h (hmin w (List.mem_filter.mp hw).1)
          -- L3: dropping the ≥ dt elements does not change the μ search
          have hL3 : ((qualifying rest x y nd filterFn mapSize).filter
                (fun u => decide ((targetDist x y mapSize u : WithTop ℝ)
                  < (targetDist x y mapSize t : WithTop ℝ)))).find?
                (fun u => decide (targetDist x y mapSize u ≤ targetDist x y mapSize w₀))
              = (qualifying rest x y nd filterFn mapSize).find?
                (fun u => decide (targetDist x y mapSize u ≤ targetDist x y mapSize w₀)) := by
            apply find?_filter_of_imp
            intro u _ hu
            rw [decide_eq_true_iff] at hu
            rw [decide_eq_true_iff]
            exact WithTop.coe_lt_coe.mpr (lt_of_le_of_lt hu hμt)
          -- the μ search succeeds
          have hsome : ∃ u, (qualifying rest x y nd filterFn mapSize).find?
              (fun u => decide (targetDist x y mapSize u ≤ targetDist x y mapSize w₀))
              = some u := by
            apply Option.isSome_iff_exists.mp
            rw [List.find?_isSome]
            exact ⟨w₀, hw₀, by rw [decide_eq_true_iff]⟩
          obtain ⟨u, hu⟩ := hsome
          rw [hL2, hL1, hL3, hu, hR1, hR2, hu]
          rfl
      · -- candidate too far: skipped
        have hq : qualifying (t :: rest) x y nd filterFn mapSize
            = qualifying rest x y nd filterFn mapSize := by
          simp [qualifying, List.filter_cons, hft, hd]
        simp only [findNearestGo, if_neg hf, if_neg hd]
        rw [hq, ih]


/-- Claim C3: `findNearestTarget` equals the specification-side selection
(the earliest-scanned filter-passing candidate of minimal distance,
strictly below `maxDist`); it returns `none` exactly when no candidate
passes the filter within `maxDist`, and any returned candidate passes the
filter, is within `maxDist`, and minimises the distance (wrapped when
`mapSize > 0`) over all qualifying candidates. -/
theorem findNearestTarget_spec {α : Type} (targets : List (TargetLike α)) (x y : ℝ)
    (maxDist : WithTop ℝ) (filterFn : TargetLike α → Bool) (mapSize : ℝ) :
    findNearestTarget targets x y maxDist filterFn mapSize
      = specNearestTarget targets x y maxDist filterFn mapSize ∧
    (findNearestTarget targets x y maxDist filterFn mapSize = none ↔
      ∀ t ∈ targets, filterFn t = true →
        ¬ ((targetDist x y mapSize t : WithTop ℝ) < maxDist)) ∧
    (∀ t, findNearestTarget targets x y maxDist filterFn mapSize = some t →
      t ∈ targets ∧ filterFn t = true ∧
        ((targetDist x y mapSize t : WithTop ℝ) < maxDist) ∧
        ∀ u ∈ targets, filterFn u = true →
          ((targetDist x y mapSize u : WithTop ℝ) < maxDist) →
          targetDist x y mapSize t ≤ targetDist x y mapSize u) := by
  have hmain : findNearestTarget targets x y maxDist filterFn mapSize
      = specNearestTarget targets x y maxDist filterFn mapSize := by
    rw [findNearestTarget, findNearestGo_eq, Option.or_none]
    rfl
  refine ⟨hmain, ?_, ?_⟩
  · rw [hmain]
    unfold specNearestTarget
    constructor
    · intro hnone t ht hft hdt
      have htq : t ∈ qualifying targets x y maxDist filterFn mapSize :=
        List.mem_filter.mpr ⟨ht, by
          rw [Bool.and_eq_true, decide_eq_true_iff]
          exact ⟨hft, hdt⟩⟩
      have hne : qualifying targets x y maxDist filterFn mapSize ≠ [] :=
        List.ne_nil_of_mem htq
      obtain ⟨w₀, hw₀, hmin⟩ :=
        exists_list_min (targetDist x y mapSize)
          (qualifying targets x y maxDist filterFn mapSize) hne
      have hsome : ((qualifying targets x y maxDist filterFn mapSize).find? fun u =>
          decide (∀ w ∈ qualifying targets x y maxDist filterFn mapSize,
            targetDist x y mapSize u ≤ targetDist x y mapSize w)).isSome = true := by
        rw [List.find?_isSome]
        exact ⟨w₀, hw₀, by rw [decide_eq_true_iff]; exact hmin⟩
      rw [hnone] at hsome
      simp at hsome
    · intro hall
      have hq : qualifying targets x y maxDist filterFn mapSize = [] := by
        apply List.filter_eq_nil_iff.mpr
        intro t ht hc
        rw [Bool.and_eq_true, decide_eq_true_iff] at hc
        exact hall t ht hc.1 hc.2
      rw [hq]
      rfl
  · intro t ht
    rw [hmain] at ht
    unfold specNearestTarget at ht
    have htq : t ∈ qualifying targets x y maxDist filterFn mapSize :=
      List.mem_of_find?_eq_some ht
    have hpt := List.find?_some ht
    rw [decide_eq_true_iff] at hpt
    obtain ⟨htargets, hcond⟩ := List.mem_filter.mp htq
    rw [Bool.and_eq_true, decide_eq_true_iff] at hcond
    refine ⟨htargets, hcond.1, hcond.2, ?_⟩
    intro u hu hfu hdu
    exact hpt u (List.mem_filter.mpr ⟨hu, by
      rw [Bool.and_eq_true, decide_eq_true_iff]
      exact ⟨hfu, hdu⟩⟩)


theorem targetDist_witness_far :
    targetDist 95 50 100 (⟨60, 50, (0 : ℕ)⟩ : TargetLike ℕ) = 35 := by
  simp only [targetDist]
  norm_num [wrapDelta]
  rw [show (1225 : ℝ) = 35 ^ 2 by norm_num]
  exact Real.sqrt_sq (by norm_num)

theorem targetDist_witness_near :
    targetDist 95 50 100 (⟨5, 50, (1 : ℕ)⟩ : TargetLike ℕ) = 10 := by
  simp only [targetDist]
  norm_num [wrapDelta]
  rw [show (100 : ℝ) = 10 ^ 2 by norm_num]
  exact Real.sqrt_sq (by norm_num)

/-- Witness for C3: on a 100-wide map with origin x at `95`, the target at
x `5` (wrapped distance `10`) beats the target at x `60` (distance `35`). -/
theorem findNearestTarget_spec_witness :
    findNearestTarget [⟨60, 50, 0⟩, ⟨5, 50, 1⟩] 95 50 ⊤ (fun _ => true) 100
      = some (⟨5, 50, 1⟩ : TargetLike ℕ) ∧
    (⟨5, 50, 1⟩ : TargetLike ℕ) ∈ ([⟨60, 50, 0⟩, ⟨5, 50, 1⟩] : List (TargetLike ℕ)) ∧
    (fun (_ : TargetLike ℕ) => true) ⟨5, 50, 1⟩ = true ∧
    ((targetDist 95 50 100 (⟨5, 50, 1⟩ : TargetLike ℕ) : WithTop ℝ) < ⊤) := by
  have heval : findNearestTarget [⟨60, 50, 0⟩, ⟨5, 50, 1⟩] 95 50 ⊤ (fun _ => true) 100
      = some (⟨5, 50, 1⟩ : TargetLike ℕ) := by
    rw [findNearestTarget]
    simp only [findNearestGo, targetDist_witness_far, targetDist_witness_near]
    rw [if_neg (by simp), if_pos (WithTop.coe_lt_top (35 : ℝ)),
      if_neg (by simp), if_pos (WithTop.coe_lt_coe.mpr (by norm_num : (10 : ℝ) < 35))]
  have h3 := (findNearestTarget_spec [⟨60, 50, 0⟩, ⟨5, 50, 1⟩] 95 50 ⊤
    (fun _ => true) 100).2.2 ⟨5, 50, 1⟩ heval
  exact ⟨heval, h3.1, h3.2.1, h3.2.2.1⟩

end GameUtils
